import Mathlib

/-!
# Booking & Inventory Consistency Engine — shallow embedding

A shallow embedding of the booking controller of the
`event-management-backend` repository
(`src/controllers/bookingController.js`), over an explicit database
state, together with proofs and refutations of the stated properties.

Modelling decisions, each tied to the source:

* The MySQL tables `events`, `ticket_types` and `bookings` are
  association lists keyed by `INT AUTO_INCREMENT PRIMARY KEY` ids.
  The counter columns (`available_seats`, `available_quantity`,
  `capacity`, `quantity`) are signed `INT NOT NULL` columns
  (`config/initDb.js`), so they are modelled as `Int` — they *can* go
  negative at the SQL level.
* `DECIMAL(10,2)` money columns (`price`, `total_price`) are modelled
  as exact rationals `ℚ`.
* `status ENUM('confirmed','cancelled') DEFAULT 'confirmed'` is a two
  constructor inductive; an `INSERT` that omits `status` stores
  `confirmed`.
* JavaScript truthiness on `ticket_type_id` (`if (ticket_type_id)`,
  `ticket_type_id || null`) is modelled by `truthy`, which collapses
  `some 0` to `none`.
* A MySQL transaction buffers its writes until `COMMIT`; a rollback
  path therefore returns the *caller-visible* state unchanged.  The
  embedding of each handler returns the state visible after the
  request: the input state on every rollback path, the mutated state
  after a commit.
* An explicit `fault` parameter injects a storage-engine failure into
  the n-th SQL statement executed by the handler (the `catch` /
  `rollback` / rethrow path of the source); `none` is a fault-free
  run.
* Each handler also returns the list of storage accesses it performed,
  used to state "no storage access happened" properties.
-/

/-- `status` column of `bookings`: `ENUM('confirmed','cancelled')`. -/
inductive BookingStatus where
  | confirmed
  | cancelled
  deriving DecidableEq, Repr

/-- A row of the `events` table (the columns the engine touches).
`capacity INT NOT NULL`, `available_seats INT NOT NULL`. -/
structure EventRow where
  capacity : Int
  available_seats : Int
  deriving DecidableEq, Repr

/-- A row of the `ticket_types` table.  `event_id INT NOT NULL`,
`price DECIMAL(10,2) NOT NULL`, `quantity INT NOT NULL`,
`available_quantity INT NOT NULL`. -/
structure TicketTypeRow where
  event_id : Nat
  price : ℚ
  quantity : Int
  available_quantity : Int
  deriving DecidableEq, Repr

/-- A row of the `bookings` table.  `ticket_type_id INT` is nullable. -/
structure BookingRow where
  user_id : Nat
  event_id : Nat
  ticket_type_id : Option Nat
  quantity : Int
  total_price : ℚ
  status : BookingStatus
  deriving DecidableEq, Repr

/-- The database state the engine reads and writes: the three tables as
association lists keyed by id, plus the `bookings` `AUTO_INCREMENT`
counter. -/
structure Db where
  events : List (Nat × EventRow)
  ticket_types : List (Nat × TicketTypeRow)
  bookings : List (Nat × BookingRow)
  nextBookingId : Nat
  deriving DecidableEq, Repr

/-- One storage access performed by a handler (a row read, a row
write, or a ledger insert). -/
inductive Access where
  | readEvent (id : Nat)
  | readTicketType (id : Nat) (event_id : Nat)
  | readBooking (id : Nat)
  | writeEvent (id : Nat)
  | writeTicketType (id : Nat)
  | writeBooking (id : Nat)
  | insertBooking (id : Nat)
  deriving DecidableEq, Repr

/-- The possible HTTP outcomes of the two handlers, one constructor per
distinct response of the source. -/
inductive ApiResult where
  /-- 201, `{ bookingId }` — `createBooking` committed. -/
  | created (bookingId : Nat)
  /-- 200 — `cancelBooking` committed. -/
  | ok
  /-- 400 from `express-validator` (`quantity` not an int ≥ 1). -/
  | validationError
  /-- 404 `'Event not found'`. -/
  | eventNotFound
  /-- 400 `'Not enough available seats'`. -/
  | notEnoughSeats
  /-- 404 `'Ticket type not found'`. -/
  | ticketTypeNotFound
  /-- 400 `'Not enough tickets available'`. -/
  | notEnoughTickets
  /-- 404 `'Booking not found'` (absent or not owned). -/
  | bookingNotFound
  /-- 400 `'Booking already cancelled'`. -/
  | alreadyCancelled
  /-- 500 — a storage statement threw; the transaction rolled back. -/
  | storageFailure
  deriving DecidableEq, Repr

/-- What a handler invocation leaves behind: the HTTP result, the
committed database state visible afterwards, and the storage accesses
performed. -/
structure Outcome where
  result : ApiResult
  db : Db
  trace : List Access
  deriving DecidableEq, Repr

/-- JavaScript truthiness on a nullable integer id: `0` and `null` are
falsy (`if (ticket_type_id)`, `ticket_type_id || null`). -/
def truthy : Option Nat → Option Nat
  | some t => if t = 0 then none else some t
  | none => none

/-- `UPDATE t SET ... WHERE id = k`: rewrite every row whose key is
`k` with `f`, leaving all other rows (and row order) unchanged. -/
def updateAssoc (k : Nat) (f : α → α) : List (Nat × α) → List (Nat × α)
  | [] => []
  | (k', v) :: rest => (k', if k' = k then f v else v) :: updateAssoc k f rest

/-- `SELECT * FROM ticket_types WHERE id = ? AND event_id = ?`:
first row matching both conditions. -/
def findTicketType (l : List (Nat × TicketTypeRow)) (t eid : Nat) :
    Option TicketTypeRow :=
  (l.find? fun p => p.1 == t && p.2.event_id == eid).map Prod.snd

/-- `SELECT * FROM bookings WHERE id = ?` plus, for non-admin callers,
`AND user_id = ?`: first row matching. -/
def findBooking (l : List (Nat × BookingRow)) (uid : Nat) (admin : Bool)
    (bid : Nat) : Option BookingRow :=
  (l.find? fun p => p.1 == bid && (admin || p.2.user_id == uid)).map Prod.snd

/-- Does the injected fault hit the `n`-th SQL statement of this
invocation? -/
def faultAt (fault : Option Nat) (n : Nat) : Bool :=
  fault == some n

/-! ## `createBooking` (`src/controllers/bookingController.js`, reservation) -/

/-- The booking row the `INSERT INTO bookings` of `createBooking`
stores: `[req.user.id, event_id, ticket_type_id || null, quantity,
totalPrice]`, `status` defaulting to `confirmed`. -/
def newBookingRow (uid eid : Nat) (tid : Option Nat) (q : Int)
    (totalPrice : ℚ) : BookingRow :=
  { user_id := uid, event_id := eid, ticket_type_id := truthy tid,
    quantity := q, total_price := totalPrice, status := .confirmed }

/-- The write sequence of `createBooking`'s transaction, applied to the
committed state it commits against: `UPDATE ticket_types SET
available_quantity = available_quantity - ?` (when a truthy
`ticket_type_id` was supplied), `INSERT INTO bookings`, `UPDATE events
SET available_seats = available_seats - ?`.  The decrements are
*relative* (`col = col - ?`), exactly as in the SQL: they apply to the
current committed value, not to the value the earlier `SELECT` saw. -/
def reserveWrite (uid eid : Nat) (tid : Option Nat) (q : Int)
    (totalPrice : ℚ) (db : Db) : Db :=
  { events := updateAssoc eid
      (fun e => { e with available_seats := e.available_seats - q }) db.events,
    ticket_types :=
      match truthy tid with
      | some t => updateAssoc t
          (fun tt => { tt with available_quantity := tt.available_quantity - q })
          db.ticket_types
      | none => db.ticket_types,
    bookings := db.bookings ++ [(db.nextBookingId, newBookingRow uid eid tid q totalPrice)],
    nextBookingId := db.nextBookingId + 1 }

/-- The read-and-check phase of `createBooking`'s transaction: the
plain (non-locking) `SELECT` of the event row, the application-level
seat check, then — only if a truthy `ticket_type_id` was supplied —
the `SELECT` of the ticket-type row scoped to the event, its stock
check, and `price = ticketType.price * quantity`.  Returns the error
response, or the `totalPrice` (`price || 0`) to book with.  Note the
source checks `event.available_seats < quantity` *before* it looks at
the ticket type at all. -/
def reserveRead (eid : Nat) (tid : Option Nat) (q : Int) (db : Db) :
    Except ApiResult ℚ :=
  match db.events.lookup eid with
  | none => .error .eventNotFound
  | some ev =>
    if ev.available_seats < q then .error .notEnoughSeats
    else
      match truthy tid with
      | none => .ok 0
      | some t =>
        match findTicketType db.ticket_types t eid with
        | none => .error .ticketTypeNotFound
        | some tt =>
          if tt.available_quantity < q then .error .notEnoughTickets
          else .ok (tt.price * q)

/-- `createBooking(userId, eventId, ticketTypeId?, quantity)`.

Follows the source line by line.  `express-validator` rejects
`quantity < 1` with a 400 before any storage access.  Then, inside one
transaction: `SELECT` the event (statement 0) and check seats; if a
truthy tier id was given, `SELECT` the ticket type (statement 1),
check its stock, and `UPDATE` it (statement 2); `INSERT` the booking;
`UPDATE` the event's seats; `COMMIT`.  Every early `return` calls
`rollback` first, and a thrown statement is caught, rolled back and
surfaced as a 500 — on all of those paths the committed state is the
input state.  `fault` injects a throw into the numbered statement
(statement numbers count the SQL statements actually executed, the
final number being the `COMMIT`). -/
def createBooking (uid eid : Nat) (tid : Option Nat) (q : Int)
    (fault : Option Nat) (db : Db) : Outcome :=
  if q < 1 then ⟨.validationError, db, []⟩
  else if faultAt fault 0 then ⟨.storageFailure, db, []⟩
  else
    match db.events.lookup eid with
    | none => ⟨.eventNotFound, db, [.readEvent eid]⟩
    | some ev =>
      if ev.available_seats < q then ⟨.notEnoughSeats, db, [.readEvent eid]⟩
      else
        match truthy tid with
        | some t =>
          if faultAt fault 1 then ⟨.storageFailure, db, [.readEvent eid]⟩
          else
            match findTicketType db.ticket_types t eid with
            | none => ⟨.ticketTypeNotFound, db, [.readEvent eid, .readTicketType t eid]⟩
            | some tt =>
              if tt.available_quantity < q then
                ⟨.notEnoughTickets, db, [.readEvent eid, .readTicketType t eid]⟩
              else if faultAt fault 2 then
                ⟨.storageFailure, db, [.readEvent eid, .readTicketType t eid]⟩
              else if faultAt fault 3 then
                ⟨.storageFailure, db,
                  [.readEvent eid, .readTicketType t eid, .writeTicketType t]⟩
              else if faultAt fault 4 then
                ⟨.storageFailure, db,
                  [.readEvent eid, .readTicketType t eid, .writeTicketType t,
                   .insertBooking db.nextBookingId]⟩
              else if faultAt fault 5 then
                ⟨.storageFailure, db,
                  [.readEvent eid, .readTicketType t eid, .writeTicketType t,
                   .insertBooking db.nextBookingId, .writeEvent eid]⟩
              else
                ⟨.created db.nextBookingId,
                  reserveWrite uid eid tid q (tt.price * q) db,
                  [.readEvent eid, .readTicketType t eid, .writeTicketType t,
                   .insertBooking db.nextBookingId, .writeEvent eid]⟩
        | none =>
          if faultAt fault 1 then ⟨.storageFailure, db, [.readEvent eid]⟩
          else if faultAt fault 2 then
            ⟨.storageFailure, db, [.readEvent eid, .insertBooking db.nextBookingId]⟩
          else if faultAt fault 3 then
            ⟨.storageFailure, db,
              [.readEvent eid, .insertBooking db.nextBookingId, .writeEvent eid]⟩
          else
            ⟨.created db.nextBookingId,
              reserveWrite uid eid tid q 0 db,
              [.readEvent eid, .insertBooking db.nextBookingId, .writeEvent eid]⟩

/-! ## `cancelBooking` (`src/controllers/bookingController.js`, compensation) -/

/-- The ownership-scoped read of the booking and the two guards of
`cancelBooking`.  In the source this `SELECT` runs on the *pool*, in
auto-commit mode, **before** `getConnection()` /
`beginTransaction()` — it is not part of the transaction that performs
the writes. -/
def cancelRead (uid : Nat) (admin : Bool) (bid : Nat) (db : Db) :
    Except ApiResult BookingRow :=
  match findBooking db.bookings uid admin bid with
  | none => .error .bookingNotFound
  | some b =>
    if b.status = .cancelled then .error .alreadyCancelled
    else .ok b

/-- The write sequence of `cancelBooking`'s transaction, applied to
the committed state it commits against, using the booking row `b`
returned by the earlier (non-transactional) read: `UPDATE bookings SET
status = 'cancelled'`, `UPDATE events SET available_seats =
available_seats + b.quantity`, and — when `booking.ticket_type_id` is
truthy — `UPDATE ticket_types SET available_quantity =
available_quantity + b.quantity`.  The credits are relative
(`col = col + ?`). -/
def cancelWrite (bid : Nat) (b : BookingRow) (db : Db) : Db :=
  { events := updateAssoc b.event_id
      (fun e => { e with available_seats := e.available_seats + b.quantity }) db.events,
    ticket_types :=
      match truthy b.ticket_type_id with
      | some t => updateAssoc t
          (fun tt => { tt with available_quantity := tt.available_quantity + b.quantity })
          db.ticket_types
      | none => db.ticket_types,
    bookings := updateAssoc bid (fun x => { x with status := .cancelled }) db.bookings,
    nextBookingId := db.nextBookingId }

/-- `cancelBooking(callerId, callerRole, bookingId)`.

Follows the source line by line: `SELECT` the booking scoped to the
caller unless admin (statement 0, on the pool, outside any
transaction); 404 if absent or not owned; 400 if already cancelled;
then one transaction doing the status flip (statement 1), the seat
credit (statement 2) and, when the booking has a truthy
`ticket_type_id`, the tier credit (statement 3), and `COMMIT`.  A
thrown statement inside the transaction rolls everything back and
surfaces a 500. -/
def cancelBooking (uid : Nat) (admin : Bool) (bid : Nat)
    (fault : Option Nat) (db : Db) : Outcome :=
  if faultAt fault 0 then ⟨.storageFailure, db, []⟩
  else
    match findBooking db.bookings uid admin bid with
    | none => ⟨.bookingNotFound, db, [.readBooking bid]⟩
    | some b =>
      if b.status = .cancelled then ⟨.alreadyCancelled, db, [.readBooking bid]⟩
      else if faultAt fault 1 then ⟨.storageFailure, db, [.readBooking bid]⟩
      else if faultAt fault 2 then
        ⟨.storageFailure, db, [.readBooking bid, .writeBooking bid]⟩
      else
        match truthy b.ticket_type_id with
        | some t =>
          if faultAt fault 3 then
            ⟨.storageFailure, db,
              [.readBooking bid, .writeBooking bid, .writeEvent b.event_id]⟩
          else if faultAt fault 4 then
            ⟨.storageFailure, db,
              [.readBooking bid, .writeBooking bid, .writeEvent b.event_id,
               .writeTicketType t]⟩
          else
            ⟨.ok, cancelWrite bid b db,
              [.readBooking bid, .writeBooking bid, .writeEvent b.event_id,
               .writeTicketType t]⟩
        | none =>
          if faultAt fault 3 then
            ⟨.storageFailure, db,
              [.readBooking bid, .writeBooking bid, .writeEvent b.event_id]⟩
          else
            ⟨.ok, cancelWrite bid b db,
              [.readBooking bid, .writeBooking bid, .writeEvent b.event_id]⟩

/-! ## Derived notions used by the stated properties -/

/-- Did `createBooking` commit? -/
def ApiResult.isCreated : ApiResult → Bool
  | .created _ => true
  | _ => false

/-- Total quantity held by confirmed (non-cancelled) bookings of event
`eid` — the seats the ledger says are currently reserved. -/
def confirmedSeats (bs : List (Nat × BookingRow)) (eid : Nat) : Int :=
  ((bs.filter fun p => p.2.status == BookingStatus.confirmed && p.2.event_id == eid).map
    fun p => p.2.quantity).sum

/-- Total quantity held by confirmed bookings that reference ticket
type `t`. -/
def confirmedTickets (bs : List (Nat × BookingRow)) (t : Nat) : Int :=
  ((bs.filter fun p =>
      p.2.status == BookingStatus.confirmed && p.2.ticket_type_id == some t).map
    fun p => p.2.quantity).sum

/-- The inductive consistency invariant of the engine: primary keys are
unique, the `AUTO_INCREMENT` counter is ahead of every ledger id,
every booking holds at least one unit, each counter is nonnegative,
and each counter plus the units the confirmed ledger holds against it
stays within the fixed ceiling (`capacity` / `quantity`). -/
def Consistent (db : Db) : Prop :=
  (db.events.map Prod.fst).Nodup ∧
  (db.ticket_types.map Prod.fst).Nodup ∧
  (db.bookings.map Prod.fst).Nodup ∧
  (∀ p ∈ db.bookings, p.1 < db.nextBookingId) ∧
  (∀ p ∈ db.bookings, 1 ≤ p.2.quantity) ∧
  (∀ p ∈ db.events, 0 ≤ p.2.available_seats ∧
      p.2.available_seats + confirmedSeats db.bookings p.1 ≤ p.2.capacity) ∧
  (∀ p ∈ db.ticket_types, 0 ≤ p.2.available_quantity ∧
      p.2.available_quantity + confirmedTickets db.bookings p.1 ≤ p.2.quantity)

/-- The two counter inequalities of the specification:
`0 ≤ available_seats ≤ capacity` for every event and
`0 ≤ available_quantity ≤ quantity` for every ticket tier. -/
def SeatInvariants (db : Db) : Prop :=
  (∀ p ∈ db.events, 0 ≤ p.2.available_seats ∧ p.2.available_seats ≤ p.2.capacity) ∧
  (∀ p ∈ db.ticket_types, 0 ≤ p.2.available_quantity ∧ p.2.available_quantity ≤ p.2.quantity)

/-- One serial API call against the committed state: a `createBooking`
or a `cancelBooking` invocation with any arguments, including any
injected storage fault. -/
inductive Step : Db → Db → Prop where
  | reserve (uid eid : Nat) (tid : Option Nat) (q : Int) (fault : Option Nat) (db : Db) :
      Step db (createBooking uid eid tid q fault db).db
  | cancel (uid : Nat) (admin : Bool) (bid : Nat) (fault : Option Nat) (db : Db) :
      Step db (cancelBooking uid admin bid fault db).db

/-- Reachability under any finite serial sequence of reserve and
cancel calls. -/
def Reachable : Db → Db → Prop := Relation.ReflTransGen Step

/-! ## Concrete states for the stated scenarios -/

/-- Scenario A's initial state: one event, `capacity = 10`,
`available_seats = 10`, empty ledger. -/
def dbScenarioA : Db := ⟨[(1, ⟨10, 10⟩)], [], [], 1⟩

/-- Scenario B's initial state: one event with ten seats and one
ticket type of that event priced `99.99` with four units. -/
def dbScenarioB : Db := ⟨[(1, ⟨10, 10⟩)], [(5, ⟨1, (9999 : ℚ)/100, 4, 4⟩)], [], 1⟩

/-- A sold-out event (`available_seats = 0`) and no ticket types. -/
def dbSoldOut : Db := ⟨[(1, ⟨10, 0⟩)], [], [], 1⟩

/-- An event whose tier belongs to a *different* event, with seats to
spare. -/
def dbWrongTier : Db := ⟨[(1, ⟨10, 10⟩)], [(5, ⟨2, 0, 4, 4⟩)], [], 1⟩

/-- A confirmed two-seat booking of user 7 against event 1. -/
def bkTwoSeats : BookingRow := ⟨7, 1, none, 2, 0, .confirmed⟩

/-- A state holding `bkTwoSeats` with three seats left on its event. -/
def dbCancelRace : Db := ⟨[(1, ⟨10, 3⟩)], [], [(1, bkTwoSeats)], 2⟩

/-- A state satisfying the two counter inequalities whose ledger holds
a confirmed booking **not** accounted for in the counters:
`available_seats = capacity = 10` next to a confirmed five-seat
booking. -/
def dbUnaccounted : Db := ⟨[(1, ⟨10, 10⟩)], [], [(1, ⟨7, 1, none, 5, 0, .confirmed⟩)], 2⟩

/-- A state satisfying the full accounting invariant `Consistent`:
seven seats free of ten, a three-unit confirmed booking on a tier with
three of six units free. -/
def dbAccounted : Db :=
  ⟨[(1, ⟨10, 7⟩)], [(5, ⟨1, 0, 6, 3⟩)], [(1, ⟨7, 1, some 5, 3, 0, .confirmed⟩)], 2⟩

/-! ## Association-list lemmas -/

theorem lookup_updateAssoc_self (k : Nat) (f : α → α) (l : List (Nat × α)) :
    (updateAssoc k f l).lookup k = (l.lookup k).map f := by
  induction l with
  | nil => rfl
  | cons p rest ih =>
    obtain ⟨k', v⟩ := p
    by_cases h : k' = k
    · subst h; simp [updateAssoc, List.lookup]
    · have hb : (k == k') = false := by simp [Ne.symm h]
      simp [updateAssoc, List.lookup, h, hb, ih]

theorem lookup_updateAssoc_ne (k k' : Nat) (hne : k' ≠ k) (f : α → α)
    (l : List (Nat × α)) :
    (updateAssoc k f l).lookup k' = l.lookup k' := by
  induction l with
  | nil => rfl
  | cons p rest ih =>
    obtain ⟨k₀, v⟩ := p
    by_cases h : k₀ = k
    · subst h
      have hb : (k' == k₀) = false := by simp [hne]
      simp [updateAssoc, List.lookup, hb, ih]
    · simp [updateAssoc, List.lookup, h, ih]

theorem updateAssoc_updateAssoc (k : Nat) (f g : α → α) (l : List (Nat × α)) :
    updateAssoc k f (updateAssoc k g l) = updateAssoc k (fun v => f (g v)) l := by
  induction l with
  | nil => rfl
  | cons p rest ih =>
    obtain ⟨k₀, v⟩ := p
    by_cases h : k₀ = k <;> simp [updateAssoc, h, ih]

theorem updateAssoc_congr (k : Nat) (f g : α → α) (l : List (Nat × α))
    (h : ∀ v, f v = g v) : updateAssoc k f l = updateAssoc k g l := by
  induction l with
  | nil => rfl
  | cons p rest ih =>
    obtain ⟨k₀, v⟩ := p
    by_cases hk : k₀ = k <;> simp [updateAssoc, hk, ih, h]

theorem updateAssoc_id (k : Nat) (l : List (Nat × α)) :
    updateAssoc k (fun v => v) l = l := by
  induction l with
  | nil => rfl
  | cons p rest ih =>
    obtain ⟨k₀, v⟩ := p
    by_cases hk : k₀ = k <;> simp [updateAssoc, hk, ih]

theorem mem_updateAssoc {k : Nat} {f : α → α} {l : List (Nat × α)}
    {p : Nat × α} (hp : p ∈ updateAssoc k f l) :
    ∃ v, (p.1, v) ∈ l ∧ p.2 = if p.1 = k then f v else v := by
  induction l with
  | nil => cases hp
  | cons q rest ih =>
    obtain ⟨k₀, v⟩ := q
    rcases List.mem_cons.mp hp with h | h
    · subst h
      exact ⟨v, List.mem_cons_self _ _, rfl⟩
    · obtain ⟨w, hw, hval⟩ := ih h
      exact ⟨w, List.mem_cons_of_mem _ hw, hval⟩

theorem map_fst_updateAssoc (k : Nat) (f : α → α) (l : List (Nat × α)) :
    (updateAssoc k f l).map Prod.fst = l.map Prod.fst := by
  induction l with
  | nil => rfl
  | cons p rest ih =>
    obtain ⟨k₀, v⟩ := p
    simp [updateAssoc, ih]

theorem length_updateAssoc (k : Nat) (f : α → α) (l : List (Nat × α)) :
    (updateAssoc k f l).length = l.length := by
  induction l with
  | nil => rfl
  | cons p rest ih =>
    obtain ⟨k₀, v⟩ := p
    simp [updateAssoc, ih]

/-! ## Characterization of the two handlers -/

/-- `List.lookup` finds a freshly appended row when no earlier row has
its key (the `AUTO_INCREMENT` primary-key discipline). -/
theorem lookup_append_fresh (l : List (Nat × α)) (k : Nat) (v : α)
    (hfresh : ∀ p ∈ l, p.1 ≠ k) : (l ++ [(k, v)]).lookup k = some v := by
  induction l with
  | nil => simp [List.lookup]
  | cons p rest ih =>
    obtain ⟨k₀, w⟩ := p
    have hk : k₀ ≠ k := hfresh (k₀, w) (List.mem_cons_self _ _)
    have hb : (k == k₀) = false := by simp [Ne.symm hk]
    simpa [List.lookup, hb] using ih fun p hp => hfresh p (List.mem_cons_of_mem _ hp)

/-- `find?` ignores a prefix none of whose keys match the wanted key. -/
theorem findBooking_append_fresh (l : List (Nat × BookingRow)) (uid : Nat)
    (admin : Bool) (k : Nat) (v : BookingRow)
    (hfresh : ∀ p ∈ l, p.1 ≠ k) (hown : (admin || v.user_id == uid) = true) :
    findBooking (l ++ [(k, v)]) uid admin k = some v := by
  induction l with
  | nil => simp [findBooking, List.find?, hown]
  | cons p rest ih =>
    obtain ⟨k₀, w⟩ := p
    have hk : k₀ ≠ k := hfresh (k₀, w) (List.mem_cons_self _ _)
    have hb : (k₀ == k) = false := by simp [hk]
    simpa [findBooking, List.find?, hb] using
      ih fun p hp => hfresh p (List.mem_cons_of_mem _ hp)

/-- Everything a committed `createBooking` guarantees, and the rollback
guarantee of every other outcome: the handler either leaves the
committed state untouched (and did not report a creation), or reports
`created` with the next ledger id and commits exactly the
`reserveWrite` write set justified by the in-transaction reads. -/
theorem createBooking_spec (uid eid : Nat) (tid : Option Nat) (q : Int)
    (fault : Option Nat) (db : Db) :
    ((createBooking uid eid tid q fault db).result.isCreated = false ∧
      (createBooking uid eid tid q fault db).db = db) ∨
    ((createBooking uid eid tid q fault db).result = .created db.nextBookingId ∧
      1 ≤ q ∧
      ∃ ev, db.events.lookup eid = some ev ∧ q ≤ ev.available_seats ∧
        ((truthy tid = none ∧
            (createBooking uid eid tid q fault db).db = reserveWrite uid eid tid q 0 db) ∨
         (∃ t tt, truthy tid = some t ∧
            findTicketType db.ticket_types t eid = some tt ∧
            q ≤ tt.available_quantity ∧
            (createBooking uid eid tid q fault db).db =
              reserveWrite uid eid tid q (tt.price * (q : ℚ)) db))) := by
  by_cases hq : q < 1
  · exact Or.inl (by simp [createBooking, hq, ApiResult.isCreated])
  cases hf0 : faultAt fault 0 with
  | true => exact Or.inl (by simp [createBooking, hq, hf0, ApiResult.isCreated])
  | false =>
  rcases hev : db.events.lookup eid with _ | ev
  · exact Or.inl (by simp [createBooking, hq, hf0, hev, ApiResult.isCreated])
  by_cases hseats : ev.available_seats < q
  · exact Or.inl (by simp [createBooking, hq, hf0, hev, hseats, ApiResult.isCreated])
  rcases htid : truthy tid with _ | t
  · cases hf1 : faultAt fault 1 with
    | true =>
      exact Or.inl (by simp [createBooking, hq, hf0, hev, hseats, htid, hf1, ApiResult.isCreated])
    | false =>
    cases hf2 : faultAt fault 2 with
    | true =>
      exact Or.inl (by simp [createBooking, hq, hf0, hev, hseats, htid, hf1, hf2, ApiResult.isCreated])
    | false =>
    cases hf3 : faultAt fault 3 with
    | true =>
      exact Or.inl (by
        simp [createBooking, hq, hf0, hev, hseats, htid, hf1, hf2, hf3, ApiResult.isCreated])
    | false =>
      refine Or.inr ⟨?_, not_lt.mp hq, ev, rfl, not_lt.mp hseats, Or.inl ⟨rfl, ?_⟩⟩ <;>
        simp [createBooking, hq, hf0, hev, hseats, htid, hf1, hf2, hf3]
  · cases hf1 : faultAt fault 1 with
    | true =>
      exact Or.inl (by simp [createBooking, hq, hf0, hev, hseats, htid, hf1, ApiResult.isCreated])
    | false =>
    rcases htt : findTicketType db.ticket_types t eid with _ | tt
    · exact Or.inl (by
        simp [createBooking, hq, hf0, hev, hseats, htid, hf1, htt, ApiResult.isCreated])
    by_cases hstock : tt.available_quantity < q
    · exact Or.inl (by
        simp [createBooking, hq, hf0, hev, hseats, htid, hf1, htt, hstock, ApiResult.isCreated])
    cases hf2 : faultAt fault 2 with
    | true =>
      exact Or.inl (by
        simp [createBooking, hq, hf0, hev, hseats, htid, hf1, htt, hstock, hf2,
          ApiResult.isCreated])
    | false =>
    cases hf3 : faultAt fault 3 with
    | true =>
      exact Or.inl (by
        simp [createBooking, hq, hf0, hev, hseats, htid, hf1, htt, hstock, hf2, hf3,
          ApiResult.isCreated])
    | false =>
    cases hf4 : faultAt fault 4 with
    | true =>
      exact Or.inl (by
        simp [createBooking, hq, hf0, hev, hseats, htid, hf1, htt, hstock, hf2, hf3, hf4,
          ApiResult.isCreated])
    | false =>
    cases hf5 : faultAt fault 5 with
    | true =>
      exact Or.inl (by
        simp [createBooking, hq, hf0, hev, hseats, htid, hf1, htt, hstock, hf2, hf3, hf4, hf5,
          ApiResult.isCreated])
    | false =>
      refine Or.inr ⟨?_, not_lt.mp hq, ev, rfl, not_lt.mp hseats,
        Or.inr ⟨t, tt, rfl, htt, not_lt.mp hstock, ?_⟩⟩ <;>
        simp [createBooking, hq, hf0, hev, hseats, htid, hf1, htt, hstock, hf2, hf3, hf4, hf5]

/-- Everything a committed `cancelBooking` guarantees, and the rollback
guarantee of every other outcome. -/
theorem cancelBooking_spec (uid : Nat) (admin : Bool) (bid : Nat)
    (fault : Option Nat) (db : Db) :
    ((cancelBooking uid admin bid fault db).result ≠ .ok ∧
      (cancelBooking uid admin bid fault db).db = db) ∨
    ((cancelBooking uid admin bid fault db).result = .ok ∧
      ∃ b, findBooking db.bookings uid admin bid = some b ∧ b.status = .confirmed ∧
        (cancelBooking uid admin bid fault db).db = cancelWrite bid b db) := by
  cases hf0 : faultAt fault 0 with
  | true => exact Or.inl (by simp [cancelBooking, hf0])
  | false =>
  rcases hb : findBooking db.bookings uid admin bid with _ | b
  · exact Or.inl (by simp [cancelBooking, hf0, hb])
  by_cases hst : b.status = .cancelled
  · exact Or.inl (by simp [cancelBooking, hf0, hb, hst])
  have hconf : b.status = .confirmed := by
    cases h : b.status
    · rfl
    · exact absurd h hst
  cases hf1 : faultAt fault 1 with
  | true => exact Or.inl (by simp [cancelBooking, hf0, hb, hst, hf1])
  | false =>
  cases hf2 : faultAt fault 2 with
  | true => exact Or.inl (by simp [cancelBooking, hf0, hb, hst, hf1, hf2])
  | false =>
  rcases htid : truthy b.ticket_type_id with _ | t
  · cases hf3 : faultAt fault 3 with
    | true => exact Or.inl (by simp [cancelBooking, hf0, hb, hst, hf1, hf2, htid, hf3])
    | false =>
      exact Or.inr ⟨by simp [cancelBooking, hf0, hb, hst, hf1, hf2, htid, hf3],
        b, rfl, hconf, by simp [cancelBooking, hf0, hb, hst, hf1, hf2, htid, hf3]⟩
  · cases hf3 : faultAt fault 3 with
    | true => exact Or.inl (by simp [cancelBooking, hf0, hb, hst, hf1, hf2, htid, hf3])
    | false =>
    cases hf4 : faultAt fault 4 with
    | true => exact Or.inl (by simp [cancelBooking, hf0, hb, hst, hf1, hf2, htid, hf3, hf4])
    | false =>
      exact Or.inr ⟨by simp [cancelBooking, hf0, hb, hst, hf1, hf2, htid, hf3, hf4],
        b, rfl, hconf, by simp [cancelBooking, hf0, hb, hst, hf1, hf2, htid, hf3, hf4]⟩

/-! ## C9 — validation happens before any storage access -/

/-- **C9**: a reserve invocation with `quantity < 1` is rejected by the
validation layer with `validationError`, leaves the committed state
untouched, and performs no storage access at all — in particular no
read of the event or ticket-type rows (empty access trace). -/
theorem reserve_invalid_quantity_rejected_before_storage
    (uid eid : Nat) (tid : Option Nat) (q : Int) (fault : Option Nat) (db : Db)
    (hq : q < 1) :
    createBooking uid eid tid q fault db = ⟨.validationError, db, []⟩ := by
  simp [createBooking, hq]

/-- Witness for C9: `reserve(eventId = 1, quantity = 0)` against
Scenario A's state. -/
theorem reserve_invalid_quantity_rejected_before_storage_witness :
    (0 : Int) < 1 ∧
    createBooking 7 1 none 0 none dbScenarioA = ⟨.validationError, dbScenarioA, []⟩ :=
  ⟨by decide,
   reserve_invalid_quantity_rejected_before_storage 7 1 none 0 none dbScenarioA (by decide)⟩

/-! ## C2 — every failed reserve is a full rollback -/

/-- **C2**: whenever a reserve invocation does not end in `created` —
event absent, tier absent or mismatched, insufficient stock on either
counter, validation failure, or a storage fault injected into any
statement of the transaction — the committed state is exactly the
input state: no counter moved and no ledger row appeared. -/
theorem reserve_failure_full_rollback
    (uid eid : Nat) (tid : Option Nat) (q : Int) (fault : Option Nat) (db : Db)
    (h : (createBooking uid eid tid q fault db).result.isCreated = false) :
    (createBooking uid eid tid q fault db).db = db := by
  rcases createBooking_spec uid eid tid q fault db with ⟨_, hdb⟩ | ⟨hr, _⟩
  · exact hdb
  · rw [hr] at h
    simp [ApiResult.isCreated] at h

/-- Witness for C2: a storage fault injected into the `INSERT`
statement of a reserve that had already decremented the tier counter
inside the transaction — the rollback restores everything. -/
theorem reserve_failure_full_rollback_witness :
    (createBooking 7 1 (some 5) 2 (some 3) dbScenarioB).result.isCreated = false ∧
    (createBooking 7 1 (some 5) 2 (some 3) dbScenarioB).db = dbScenarioB :=
  ⟨by decide, reserve_failure_full_rollback 7 1 (some 5) 2 (some 3) dbScenarioB (by decide)⟩

/-! ## C7 — unknown or mismatched tier -/

/-- **C7, counterexample**: the claim says a reserve with a tier id not
belonging to the event returns `NotFound` *in every state, including
states where `available_seats` is below the requested quantity*.  The
source checks `event.available_seats < quantity` *before* it reads the
ticket type, so on a sold-out event the very same call returns the
insufficient-inventory error, not `NotFound` (the counter is still
left unchanged). -/
theorem reserve_unknown_tier_seat_check_first :
    (createBooking 7 1 (some 999) 1 none dbSoldOut).result = .notEnoughSeats ∧
    (createBooking 7 1 (some 999) 1 none dbSoldOut).result ≠ .ticketTypeNotFound ∧
    (createBooking 7 1 (some 999) 1 none dbSoldOut).db = dbSoldOut := by
  decide

/-- **C7, amended**: in every fault-free state where the event exists
and its `available_seats` already covers the requested quantity, a
reserve naming a tier id that is absent or belongs to another event
returns `ticketTypeNotFound` and leaves the committed state — in
particular `available_seats` — unchanged.  (When the seats are short,
the seat check fires first and returns `notEnoughSeats`; the state is
equally unchanged, as `reserve_failure_full_rollback` shows.) -/
theorem reserve_unknown_tier_not_found
    (uid eid t : Nat) (q : Int) (db : Db) (ev : EventRow)
    (hq : ¬ q < 1)
    (hev : db.events.lookup eid = some ev)
    (hseats : ¬ ev.available_seats < q)
    (ht : t ≠ 0)
    (htt : findTicketType db.ticket_types t eid = none) :
    createBooking uid eid (some t) q none db =
      ⟨.ticketTypeNotFound, db, [.readEvent eid, .readTicketType t eid]⟩ := by
  simp [createBooking, hq, faultAt, hev, hseats, truthy, ht, htt]

/-- Witness for the amended C7: tier 5 exists but belongs to event 2,
so reserving it against event 1 (which has seats to spare) is
`ticketTypeNotFound` with no state change. -/
theorem reserve_unknown_tier_not_found_witness :
    ¬ (1 : Int) < 1 ∧
    dbWrongTier.events.lookup 1 = some ⟨10, 10⟩ ∧
    ¬ (⟨10, 10⟩ : EventRow).available_seats < (1 : Int) ∧
    (5 : Nat) ≠ 0 ∧
    findTicketType dbWrongTier.ticket_types 5 1 = none ∧
    createBooking 7 1 (some 5) 1 none dbWrongTier =
      ⟨.ticketTypeNotFound, dbWrongTier, [.readEvent 1, .readTicketType 5 1]⟩ :=
  ⟨by decide, by decide, by decide, by decide, by decide,
   reserve_unknown_tier_not_found 7 1 5 1 dbWrongTier ⟨10, 10⟩
     (by decide) (by decide) (by decide) (by decide) (by decide)⟩

/-! ## C1 — Scenario A under concurrency -/

/-- **C1** (evaluating the source at the failing schedule): the stock
check of `createBooking` is *not* part of a locked read — the source
issues a plain `SELECT` (no `FOR UPDATE`), checks
`event.available_seats < quantity` in application code, and then runs
the unconditional relative `UPDATE events SET available_seats =
available_seats - ?`.  Under InnoDB the `SELECT`s of two concurrent
transactions are non-locking consistent reads, so both may run against
the same committed state before either `UPDATE` commits; the `UPDATE`s
then serialize on the row lock and each applies its decrement to the
current committed value.  This theorem evaluates that schedule on
Scenario A's state (`capacity = 10`, `available_seats = 10`, two
`reserve(quantity = 6)` calls): both read phases pass the seat check,
both transactions commit a ledger row, and the final counter is `-2` —
both calls succeed and the counter goes negative, where the claim
demands exactly one success, the other failing with insufficient
inventory, and a counter that is never negative.  (Serialized, the
second call does fail: last conjunct.) -/
theorem scenarioA_concurrent_reserves_oversell :
    reserveRead 1 none 6 dbScenarioA = .ok 0 ∧
    (let dbBoth := reserveWrite 8 1 none 6 0 (reserveWrite 7 1 none 6 0 dbScenarioA)
     dbBoth.events.lookup 1 = some ⟨10, -2⟩ ∧ dbBoth.bookings.length = 2) ∧
    (createBooking 8 1 none 6 none (createBooking 7 1 none 6 none dbScenarioA).db).result
      = .notEnoughSeats :=
  ⟨rfl, ⟨rfl, rfl⟩, rfl⟩

/-! ## C3 — concurrent cancellation -/

/-- **C3** (evaluating the source at the failing schedule): in
`cancelBooking` the re-read of the booking and the `AlreadyCancelled`
guard run on the **pool**, in auto-commit mode, *before*
`getConnection()` / `beginTransaction()` — not under the transaction
or any lock covering the subsequent writes.  Two concurrent cancel
requests for the same booking can therefore both pass the guard
against the same committed state and then both commit their credit
transactions.  Evaluated on `dbCancelRace` (three seats free, a
confirmed two-seat booking): both guard reads return the confirmed
booking, and after both write transactions commit the event holds
`3 + 2 + 2 = 7` seats — the counters are credited twice, where the
claim demands exactly one credit and one `AlreadyCancelled` abort.
(Serialized, the second call is indeed aborted: last conjunct.) -/
theorem concurrent_cancels_credit_counters_twice :
    cancelRead 7 false 1 dbCancelRace = .ok bkTwoSeats ∧
    cancelRead 9 true 1 dbCancelRace = .ok bkTwoSeats ∧
    (cancelWrite 1 bkTwoSeats (cancelWrite 1 bkTwoSeats dbCancelRace)).events.lookup 1
      = some ⟨10, 7⟩ ∧
    (cancelBooking 9 true 1 none (cancelBooking 7 false 1 none dbCancelRace).db).result
      = .alreadyCancelled :=
  ⟨rfl, rfl, rfl, rfl⟩

/-! ## C8 — total price -/

/-- **C8**: every booking committed by a successful reserve carries
`total_price = tier.price × quantity` when a (truthy) tier id was
supplied and `total_price = 0` otherwise.  The freshness hypothesis is
the `AUTO_INCREMENT` primary-key discipline: no existing ledger row
already has the id the insert will use. -/
theorem booking_total_price
    (uid eid : Nat) (tid : Option Nat) (q : Int) (fault : Option Nat) (db : Db) (bid : Nat)
    (hfresh : ∀ p ∈ db.bookings, p.1 ≠ db.nextBookingId)
    (h : (createBooking uid eid tid q fault db).result = .created bid) :
    ∃ b, (createBooking uid eid tid q fault db).db.bookings.lookup bid = some b ∧
      ((truthy tid = none ∧ b.total_price = 0) ∨
       (∃ t tt, truthy tid = some t ∧ findTicketType db.ticket_types t eid = some tt ∧
          b.total_price = tt.price * (q : ℚ))) := by
  rcases createBooking_spec uid eid tid q fault db with ⟨hnc, _⟩ | ⟨hr, _, ev, _, _, hcase⟩
  · rw [h] at hnc
    simp [ApiResult.isCreated] at hnc
  · have hbid : bid = db.nextBookingId := by
      rw [h] at hr
      exact ApiResult.created.inj hr
    rcases hcase with ⟨htid, hdb⟩ | ⟨t, tt, htid, htt, _, hdb⟩
    · refine ⟨newBookingRow uid eid tid q 0, ?_, Or.inl ⟨htid, rfl⟩⟩
      rw [hdb, hbid]
      exact lookup_append_fresh db.bookings db.nextBookingId _ hfresh
    · refine ⟨newBookingRow uid eid tid q (tt.price * (q : ℚ)), ?_,
        Or.inr ⟨t, tt, htid, htt, rfl⟩⟩
      rw [hdb, hbid]
      exact lookup_append_fresh db.bookings db.nextBookingId _ hfresh

/-- Witness for C8, Scenario B: reserving quantity 2 of the tier priced
`99.99` books `total_price = 199.98` exactly. -/
theorem booking_total_price_witness :
    (∀ p ∈ dbScenarioB.bookings, p.1 ≠ dbScenarioB.nextBookingId) ∧
    (createBooking 7 1 (some 5) 2 none dbScenarioB).result = .created 1 ∧
    (∃ b, (createBooking 7 1 (some 5) 2 none dbScenarioB).db.bookings.lookup 1 = some b ∧
      ((truthy (some 5) = none ∧ b.total_price = 0) ∨
       (∃ t tt, truthy (some 5) = some t ∧
          findTicketType dbScenarioB.ticket_types t 1 = some tt ∧
          b.total_price = tt.price * ((2 : Int) : ℚ)))) ∧
    ((createBooking 7 1 (some 5) 2 none dbScenarioB).db.bookings.lookup 1).map
        BookingRow.total_price = some ((9999 : ℚ)/100 * ((2 : Int) : ℚ)) ∧
    (9999 : ℚ)/100 * ((2 : Int) : ℚ) = (19998 : ℚ)/100 :=
  ⟨by decide, by decide,
   booking_total_price 7 1 (some 5) 2 none dbScenarioB 1 (by decide) (by decide),
   rfl, by norm_num⟩

/-! ## C6 — cancelling twice -/

/-- Flipping the status of the row with key `bid` changes neither its
key nor its owner, so the ownership-scoped booking read finds the same
row, now cancelled. -/
theorem findBooking_updateAssoc_status (l : List (Nat × BookingRow)) (uid : Nat)
    (admin : Bool) (bid : Nat) :
    findBooking (updateAssoc bid (fun x => { x with status := .cancelled }) l) uid admin bid
      = (findBooking l uid admin bid).map fun x => { x with status := .cancelled } := by
  induction l with
  | nil => rfl
  | cons p rest ih =>
    obtain ⟨k, v⟩ := p
    by_cases hk : k = bid
    · subst hk
      by_cases hu : (admin || v.user_id == uid) = true
      · simp [findBooking, updateAssoc, List.find?, hu]
      · have hu' : (admin || v.user_id == uid) = false := by
          simpa using hu
        simpa [findBooking, updateAssoc, List.find?, hu'] using ih
    · have hb : (k == bid) = false := by simp [hk]
      simpa [findBooking, updateAssoc, List.find?, hb, hk] using ih

/-- **C6**: if a cancel call committed, the identical call repeated
against the resulting state returns `alreadyCancelled` after the single
booking read, and commits nothing: the outcome's state is exactly the
state after the first call, so neither `available_seats` nor any
`available_quantity` is re-credited. -/
theorem cancel_twice_second_already_cancelled (uid : Nat) (admin : Bool) (bid : Nat)
    (db : Db)
    (h : (cancelBooking uid admin bid none db).result = .ok) :
    cancelBooking uid admin bid none (cancelBooking uid admin bid none db).db =
      ⟨.alreadyCancelled, (cancelBooking uid admin bid none db).db, [.readBooking bid]⟩ := by
  rcases cancelBooking_spec uid admin bid none db with ⟨hne, _⟩ | ⟨_, b, hfind, _, hdb⟩
  · exact absurd h hne
  · set db1 := (cancelBooking uid admin bid none db).db with hdb1
    clear_value db1
    have hfind2 : findBooking db1.bookings uid admin bid
        = some { b with status := .cancelled } := by
      rw [hdb]
      show findBooking (updateAssoc bid _ db.bookings) uid admin bid = _
      rw [findBooking_updateAssoc_status, hfind]
      rfl
    simp [cancelBooking, faultAt, hfind2]

/-- Witness for C6: the first cancel of the two-seat booking commits,
and the repeated call is the no-op `alreadyCancelled` outcome. -/
theorem cancel_twice_second_already_cancelled_witness :
    (cancelBooking 7 false 1 none dbCancelRace).result = .ok ∧
    cancelBooking 7 false 1 none (cancelBooking 7 false 1 none dbCancelRace).db =
      ⟨.alreadyCancelled, (cancelBooking 7 false 1 none dbCancelRace).db,
        [.readBooking 1]⟩ :=
  ⟨by decide, cancel_twice_second_already_cancelled 7 false 1 dbCancelRace (by decide)⟩

/-! ## C4 — reserve followed by cancel restores counters exactly -/

/-- JS truthiness is idempotent: what the insert stores for
`ticket_type_id` is already truthy-normalized. -/
theorem truthy_idem (o : Option Nat) : truthy (truthy o) = truthy o := by
  rcases o with _ | t
  · rfl
  · by_cases ht : t = 0 <;> simp [truthy, ht]

/-- Crediting a counter by `q` right after debiting it by `q` is the
identity on the whole `events` table. -/
theorem updateAssoc_credit_debit (k : Nat) (q : Int) (l : List (Nat × EventRow)) :
    updateAssoc k (fun e => { e with available_seats := e.available_seats + q })
      (updateAssoc k (fun e => { e with available_seats := e.available_seats - q }) l) = l := by
  rw [updateAssoc_updateAssoc]
  rw [updateAssoc_congr k _ (fun v => v) l (fun v => by cases v; simp)]
  exact updateAssoc_id k l

/-- Same for the `ticket_types` table. -/
theorem updateAssoc_credit_debit_tt (k : Nat) (q : Int) (l : List (Nat × TicketTypeRow)) :
    updateAssoc k (fun tt => { tt with available_quantity := tt.available_quantity + q })
      (updateAssoc k (fun tt => { tt with available_quantity := tt.available_quantity - q }) l)
      = l := by
  rw [updateAssoc_updateAssoc]
  rw [updateAssoc_congr k _ (fun v => v) l (fun v => by cases v; simp)]
  exact updateAssoc_id k l

/-- A truthy tier id is never `0`. -/
theorem truthy_ne_zero {o : Option Nat} {t : Nat} (h : truthy o = some t) : t ≠ 0 := by
  rcases o with _ | s
  · simp [truthy] at h
  · by_cases hs : s = 0
    · simp [truthy, hs] at h
    · simp only [truthy, hs, if_false, Option.some.injEq] at h
      subst h
      exact hs

/-- Evaluating a fault-free `cancelBooking` whose booking read
succeeds on a confirmed booking: it commits exactly the `cancelWrite`
write set. -/
theorem cancelBooking_eval (uid : Nat) (admin : Bool) (bid : Nat) (db : Db)
    (b : BookingRow)
    (hfind : findBooking db.bookings uid admin bid = some b)
    (hconf : b.status = .confirmed) :
    (cancelBooking uid admin bid none db).result = .ok ∧
    (cancelBooking uid admin bid none db).db = cancelWrite bid b db := by
  rcases htid : truthy b.ticket_type_id with _ | t <;>
    simp [cancelBooking, faultAt, hfind, hconf, htid]

/-- **C4**: a successful reserve immediately followed by a cancel of
the booking it created (by the same caller, or any admin) succeeds and
restores the whole `events` table and the whole `ticket_types` table —
in particular the event's `available_seats` and, when a tier was used,
that tier's `available_quantity` — to exactly their pre-reservation
values.  The freshness hypothesis is the `AUTO_INCREMENT` primary-key
discipline on the ledger. -/
theorem reserve_then_cancel_restores_counters
    (uid eid : Nat) (tid : Option Nat) (q : Int) (admin : Bool) (db : Db) (bid : Nat)
    (hfresh : ∀ p ∈ db.bookings, p.1 ≠ db.nextBookingId)
    (h : (createBooking uid eid tid q none db).result = .created bid) :
    (cancelBooking uid admin bid none (createBooking uid eid tid q none db).db).result
        = .ok ∧
    (cancelBooking uid admin bid none (createBooking uid eid tid q none db).db).db.events
        = db.events ∧
    (cancelBooking uid admin bid none
        (createBooking uid eid tid q none db).db).db.ticket_types
        = db.ticket_types := by
  rcases createBooking_spec uid eid tid q none db with ⟨hnc, _⟩ | ⟨hr, _, ev, _, _, hcase⟩
  · rw [h] at hnc
    simp [ApiResult.isCreated] at hnc
  · have hbid : bid = db.nextBookingId := by
      rw [h] at hr
      exact ApiResult.created.inj hr
    obtain ⟨price, hdb1⟩ : ∃ price, (createBooking uid eid tid q none db).db
        = reserveWrite uid eid tid q price db := by
      rcases hcase with ⟨_, hdb⟩ | ⟨t, tt, _, _, _, hdb⟩
      · exact ⟨0, hdb⟩
      · exact ⟨tt.price * (q : ℚ), hdb⟩
    have hrow : findBooking (reserveWrite uid eid tid q price db).bookings uid admin bid
        = some (newBookingRow uid eid tid q price) := by
      rw [hbid]
      exact findBooking_append_fresh db.bookings uid admin db.nextBookingId _ hfresh
        (by cases admin <;> simp [newBookingRow])
    rw [hdb1]
    obtain ⟨hres, hdb2⟩ :=
      cancelBooking_eval uid admin bid (reserveWrite uid eid tid q price db)
        (newBookingRow uid eid tid q price) hrow rfl
    refine ⟨hres, ?_, ?_⟩ <;> rw [hdb2]
    · show updateAssoc (newBookingRow uid eid tid q price).event_id _ _ = db.events
      simp only [newBookingRow, reserveWrite]
      exact updateAssoc_credit_debit eid q db.events
    · show (cancelWrite bid (newBookingRow uid eid tid q price)
          (reserveWrite uid eid tid q price db)).ticket_types = db.ticket_types
      rcases htt : truthy tid with _ | t
      · simp only [cancelWrite, reserveWrite, newBookingRow, htt]
        rfl
      · have ht0 : t ≠ 0 := truthy_ne_zero htt
        simp only [cancelWrite, reserveWrite, newBookingRow, htt]
        rw [show truthy (some t) = some t from by simp [truthy, ht0]]
        exact updateAssoc_credit_debit_tt t q db.ticket_types

/-- Witness for C4, Scenario B: reserve two tier-5 tickets, cancel the
booking, and both counters are back to their initial values. -/
theorem reserve_then_cancel_restores_counters_witness :
    (∀ p ∈ dbScenarioB.bookings, p.1 ≠ dbScenarioB.nextBookingId) ∧
    (createBooking 7 1 (some 5) 2 none dbScenarioB).result = .created 1 ∧
    ((cancelBooking 7 false 1 none (createBooking 7 1 (some 5) 2 none dbScenarioB).db).result
        = .ok ∧
      (cancelBooking 7 false 1 none
          (createBooking 7 1 (some 5) 2 none dbScenarioB).db).db.events
        = dbScenarioB.events ∧
      (cancelBooking 7 false 1 none
          (createBooking 7 1 (some 5) 2 none dbScenarioB).db).db.ticket_types
        = dbScenarioB.ticket_types) :=
  ⟨by decide, by decide,
   reserve_then_cancel_restores_counters 7 1 (some 5) 2 false dbScenarioB 1
     (by decide) (by decide)⟩

/-! ## C10 — a committed cancel touches nothing else -/

/-- **C10**: a committed cancel modifies only the target booking's
`status` (set to `cancelled`, all other columns of the row kept), its
event's `available_seats` (credited by the booking's quantity), and —
when the booking carries a truthy tier reference — that tier's
`available_quantity`; every other booking, event and ticket-type row
is returned unchanged (same keys, same order, same values), and the
`AUTO_INCREMENT` counter does not move. -/
theorem cancel_frame (uid : Nat) (admin : Bool) (bid : Nat) (fault : Option Nat) (db : Db)
    (h : (cancelBooking uid admin bid fault db).result = .ok) :
    ∃ b, findBooking db.bookings uid admin bid = some b ∧
      (cancelBooking uid admin bid fault db).db.nextBookingId = db.nextBookingId ∧
      (cancelBooking uid admin bid fault db).db.bookings.map Prod.fst
        = db.bookings.map Prod.fst ∧
      (cancelBooking uid admin bid fault db).db.events.map Prod.fst
        = db.events.map Prod.fst ∧
      (cancelBooking uid admin bid fault db).db.ticket_types.map Prod.fst
        = db.ticket_types.map Prod.fst ∧
      (∀ k, k ≠ bid →
        (cancelBooking uid admin bid fault db).db.bookings.lookup k
          = db.bookings.lookup k) ∧
      (cancelBooking uid admin bid fault db).db.bookings.lookup bid
        = (db.bookings.lookup bid).map (fun x => { x with status := .cancelled }) ∧
      (∀ k, k ≠ b.event_id →
        (cancelBooking uid admin bid fault db).db.events.lookup k
          = db.events.lookup k) ∧
      (cancelBooking uid admin bid fault db).db.events.lookup b.event_id
        = (db.events.lookup b.event_id).map
            (fun e => { e with available_seats := e.available_seats + b.quantity }) ∧
      (match truthy b.ticket_type_id with
       | none =>
         (cancelBooking uid admin bid fault db).db.ticket_types = db.ticket_types
       | some t =>
         (∀ k, k ≠ t →
           (cancelBooking uid admin bid fault db).db.ticket_types.lookup k
             = db.ticket_types.lookup k) ∧
         (cancelBooking uid admin bid fault db).db.ticket_types.lookup t
           = (db.ticket_types.lookup t).map
               (fun tt =>
                 { tt with available_quantity := tt.available_quantity + b.quantity })) := by
  rcases cancelBooking_spec uid admin bid fault db with ⟨hne, _⟩ | ⟨_, b, hfind, _, hdb⟩
  · exact absurd h hne
  · refine ⟨b, hfind, ?_, ?_, ?_, ?_, ?_, ?_, ?_, ?_, ?_⟩ <;> rw [hdb]
    · rfl
    · exact map_fst_updateAssoc bid _ db.bookings
    · exact map_fst_updateAssoc b.event_id _ db.events
    · rcases htid : truthy b.ticket_type_id with _ | t
      · simp only [cancelWrite, htid]
      · simp only [cancelWrite, htid]
        exact map_fst_updateAssoc t _ db.ticket_types
    · exact fun k hk => lookup_updateAssoc_ne bid k hk _ db.bookings
    · exact lookup_updateAssoc_self bid _ db.bookings
    · exact fun k hk => lookup_updateAssoc_ne b.event_id k hk _ db.events
    · exact lookup_updateAssoc_self b.event_id _ db.events
    · rcases htid : truthy b.ticket_type_id with _ | t
      · simp only [htid, cancelWrite]
      · simp only [htid, cancelWrite]
        exact ⟨fun k hk => lookup_updateAssoc_ne t k hk _ db.ticket_types,
          lookup_updateAssoc_self t _ db.ticket_types⟩

/-- Witness for C10: cancelling the three-unit tier booking of
`dbAccounted`. -/
theorem cancel_frame_witness :
    (cancelBooking 7 false 1 none dbAccounted).result = .ok ∧
    (∃ b, findBooking dbAccounted.bookings 7 false 1 = some b ∧
      (cancelBooking 7 false 1 none dbAccounted).db.nextBookingId
        = dbAccounted.nextBookingId ∧
      (cancelBooking 7 false 1 none dbAccounted).db.bookings.map Prod.fst
        = dbAccounted.bookings.map Prod.fst ∧
      (cancelBooking 7 false 1 none dbAccounted).db.events.map Prod.fst
        = dbAccounted.events.map Prod.fst ∧
      (cancelBooking 7 false 1 none dbAccounted).db.ticket_types.map Prod.fst
        = dbAccounted.ticket_types.map Prod.fst ∧
      (∀ k, k ≠ 1 →
        (cancelBooking 7 false 1 none dbAccounted).db.bookings.lookup k
          = dbAccounted.bookings.lookup k) ∧
      (cancelBooking 7 false 1 none dbAccounted).db.bookings.lookup 1
        = (dbAccounted.bookings.lookup 1).map (fun x => { x with status := .cancelled }) ∧
      (∀ k, k ≠ b.event_id →
        (cancelBooking 7 false 1 none dbAccounted).db.events.lookup k
          = dbAccounted.events.lookup k) ∧
      (cancelBooking 7 false 1 none dbAccounted).db.events.lookup b.event_id
        = (dbAccounted.events.lookup b.event_id).map
            (fun e => { e with available_seats := e.available_seats + b.quantity }) ∧
      (match truthy b.ticket_type_id with
       | none =>
         (cancelBooking 7 false 1 none dbAccounted).db.ticket_types
           = dbAccounted.ticket_types
       | some t =>
         (∀ k, k ≠ t →
           (cancelBooking 7 false 1 none dbAccounted).db.ticket_types.lookup k
             = dbAccounted.ticket_types.lookup k) ∧
         (cancelBooking 7 false 1 none dbAccounted).db.ticket_types.lookup t
           = (dbAccounted.ticket_types.lookup t).map
               (fun tt =>
                 { tt with available_quantity := tt.available_quantity + b.quantity }))) :=
  ⟨by decide, cancel_frame 7 false 1 none dbAccounted (by decide)⟩

/-! ## C5 — lemmas about keys, membership and the ledger sums -/

theorem mem_of_lookup {l : List (Nat × α)} {k : Nat} {v : α}
    (h : l.lookup k = some v) : (k, v) ∈ l := by
  induction l with
  | nil => simp [List.lookup] at h
  | cons p rest ih =>
    obtain ⟨k0, w⟩ := p
    cases hb : (k == k0) with
    | true =>
      have hk : k = k0 := by simpa using hb
      have hw : w = v := by simpa [List.lookup, hb] using h
      subst hk
      subst hw
      exact List.mem_cons_self _ _
    | false =>
      exact List.mem_cons_of_mem _ (ih (by simpa [List.lookup, hb] using h))

theorem lookup_of_mem_nodup {l : List (Nat × α)} (hnd : (l.map Prod.fst).Nodup)
    {k : Nat} {v : α} (hmem : (k, v) ∈ l) : l.lookup k = some v := by
  induction l with
  | nil => cases hmem
  | cons p rest ih =>
    obtain ⟨k0, w⟩ := p
    rw [List.map_cons, List.nodup_cons] at hnd
    rcases List.mem_cons.mp hmem with heq | hmem'
    · cases heq
      simp [List.lookup]
    · have hk : k ≠ k0 := by
        rintro rfl
        exact hnd.1 (List.mem_map.mpr ⟨(k, v), hmem', rfl⟩)
      have hb : (k == k0) = false := by simp [hk]
      simpa [List.lookup, hb] using ih hnd.2 hmem'

theorem updateAssoc_not_mem (k : Nat) (f : α → α) (l : List (Nat × α))
    (h : k ∉ l.map Prod.fst) : updateAssoc k f l = l := by
  induction l with
  | nil => rfl
  | cons p rest ih =>
    obtain ⟨k0, w⟩ := p
    rw [List.map_cons] at h
    have hk : k0 ≠ k := fun he => h (List.mem_cons.mpr (Or.inl he.symm))
    simp [updateAssoc, hk, ih fun hm => h (List.mem_cons.mpr (Or.inr hm))]

theorem findBooking_mem {l : List (Nat × BookingRow)} {uid : Nat} {admin : Bool}
    {bid : Nat} {b : BookingRow} (h : findBooking l uid admin bid = some b) :
    (bid, b) ∈ l := by
  unfold findBooking at h
  rcases Option.map_eq_some'.mp h with ⟨p, hp, hpb⟩
  have hpred := List.find?_some hp
  simp only [Bool.and_eq_true, beq_iff_eq] at hpred
  have hfst : p.1 = bid := hpred.1
  have : p = (bid, b) := by
    obtain ⟨p1, p2⟩ := p
    simp only at hfst hpb
    rw [hfst, hpb]
  exact this ▸ List.mem_of_find?_eq_some hp

theorem findTicketType_mem {l : List (Nat × TicketTypeRow)} {t eid : Nat}
    {tt : TicketTypeRow} (h : findTicketType l t eid = some tt) :
    (t, tt) ∈ l ∧ tt.event_id = eid := by
  unfold findTicketType at h
  rcases Option.map_eq_some'.mp h with ⟨p, hp, hpb⟩
  have hpred := List.find?_some hp
  simp only [Bool.and_eq_true, beq_iff_eq] at hpred
  have hfst : p.1 = t := hpred.1
  have hev : p.2.event_id = eid := hpred.2
  have hpe : p = (t, tt) := by
    obtain ⟨p1, p2⟩ := p
    simp only at hfst hpb
    rw [hfst, hpb]
  refine ⟨hpe ▸ List.mem_of_find?_eq_some hp, ?_⟩
  rw [← hpb]
  exact hev

theorem truthy_some {o : Option Nat} {t : Nat} (h : truthy o = some t) :
    o = some t := by
  rcases o with _ | s
  · simp [truthy] at h
  · by_cases hs : s = 0
    · simp [truthy, hs] at h
    · simpa [truthy, hs] using h

theorem confirmedSeats_nil (e : Nat) : confirmedSeats [] e = 0 := rfl

theorem confirmedTickets_nil (t : Nat) : confirmedTickets [] t = 0 := rfl

theorem confirmedSeats_cons (k : Nat) (v : BookingRow) (bs : List (Nat × BookingRow))
    (e : Nat) :
    confirmedSeats ((k, v) :: bs) e
      = (if v.status = .confirmed ∧ v.event_id = e then v.quantity else 0)
        + confirmedSeats bs e := by
  by_cases h : v.status = .confirmed ∧ v.event_id = e
  · have hb : (v.status == BookingStatus.confirmed && v.event_id == e) = true := by
      simp [h.1, h.2]
    simp [confirmedSeats, List.filter_cons, hb, h]
  · have hb : (v.status == BookingStatus.confirmed && v.event_id == e) = false := by
      rcases not_and_or.mp h with h1 | h1 <;> simp [h1]
    simp [confirmedSeats, List.filter_cons, hb, h]

theorem confirmedTickets_cons (k : Nat) (v : BookingRow) (bs : List (Nat × BookingRow))
    (t : Nat) :
    confirmedTickets ((k, v) :: bs) t
      = (if v.status = .confirmed ∧ v.ticket_type_id = some t then v.quantity else 0)
        + confirmedTickets bs t := by
  by_cases h : v.status = .confirmed ∧ v.ticket_type_id = some t
  · have hb : (v.status == BookingStatus.confirmed && v.ticket_type_id == some t) = true := by
      simp [h.1, h.2]
    simp [confirmedTickets, List.filter_cons, hb, h]
  · have hb : (v.status == BookingStatus.confirmed && v.ticket_type_id == some t) = false := by
      rcases not_and_or.mp h with h1 | h1 <;> simp [h1]
    simp [confirmedTickets, List.filter_cons, hb, h]

theorem confirmedSeats_append (bs : List (Nat × BookingRow)) (k : Nat) (b : BookingRow)
    (e : Nat) :
    confirmedSeats (bs ++ [(k, b)]) e
      = confirmedSeats bs e
        + (if b.status = .confirmed ∧ b.event_id = e then b.quantity else 0) := by
  induction bs with
  | nil => simp [confirmedSeats_nil, confirmedSeats_cons]
  | cons p rest ih =>
    obtain ⟨k0, v⟩ := p
    rw [List.cons_append, confirmedSeats_cons, confirmedSeats_cons, ih]
    ring

theorem confirmedTickets_append (bs : List (Nat × BookingRow)) (k : Nat) (b : BookingRow)
    (t : Nat) :
    confirmedTickets (bs ++ [(k, b)]) t
      = confirmedTickets bs t
        + (if b.status = .confirmed ∧ b.ticket_type_id = some t then b.quantity else 0) := by
  induction bs with
  | nil => simp [confirmedTickets_nil, confirmedTickets_cons]
  | cons p rest ih =>
    obtain ⟨k0, v⟩ := p
    rw [List.cons_append, confirmedTickets_cons, confirmedTickets_cons, ih]
    ring

theorem confirmedSeats_nonneg (bs : List (Nat × BookingRow)) (e : Nat)
    (h : ∀ p ∈ bs, 1 ≤ p.2.quantity) : 0 ≤ confirmedSeats bs e := by
  apply List.sum_nonneg
  intro x hx
  simp only [List.mem_map] at hx
  obtain ⟨p, hp, rfl⟩ := hx
  have := h p (List.mem_of_mem_filter hp)
  omega

theorem confirmedTickets_nonneg (bs : List (Nat × BookingRow)) (t : Nat)
    (h : ∀ p ∈ bs, 1 ≤ p.2.quantity) : 0 ≤ confirmedTickets bs t := by
  apply List.sum_nonneg
  intro x hx
  simp only [List.mem_map] at hx
  obtain ⟨p, hp, rfl⟩ := hx
  have := h p (List.mem_of_mem_filter hp)
  omega

theorem confirmedSeats_cancel (bs : List (Nat × BookingRow))
    (hnd : (bs.map Prod.fst).Nodup) {bid : Nat} {b : BookingRow}
    (hmem : (bid, b) ∈ bs) (hconf : b.status = .confirmed) (e : Nat) :
    confirmedSeats (updateAssoc bid (fun x => { x with status := .cancelled }) bs) e
      = confirmedSeats bs e - (if b.event_id = e then b.quantity else 0) := by
  induction bs with
  | nil => cases hmem
  | cons p rest ih =>
    obtain ⟨k, v⟩ := p
    rw [List.map_cons, List.nodup_cons] at hnd
    rcases List.mem_cons.mp hmem with heq | hmem'
    · cases heq
      have hrest : updateAssoc bid (fun x => { x with status := .cancelled }) rest = rest :=
        updateAssoc_not_mem _ _ _ hnd.1
      simp only [updateAssoc, if_pos rfl, hrest]
      rw [confirmedSeats_cons, confirmedSeats_cons]
      by_cases he : b.event_id = e <;> simp [he, hconf]
    · have hk : k ≠ bid := by
        rintro rfl
        exact hnd.1 (List.mem_map.mpr ⟨(k, b), hmem', rfl⟩)
      simp only [updateAssoc, if_neg hk]
      rw [confirmedSeats_cons, confirmedSeats_cons, ih hnd.2 hmem']
      ring

theorem confirmedTickets_cancel (bs : List (Nat × BookingRow))
    (hnd : (bs.map Prod.fst).Nodup) {bid : Nat} {b : BookingRow}
    (hmem : (bid, b) ∈ bs) (hconf : b.status = .confirmed) (t : Nat) :
    confirmedTickets (updateAssoc bid (fun x => { x with status := .cancelled }) bs) t
      = confirmedTickets bs t - (if b.ticket_type_id = some t then b.quantity else 0) := by
  induction bs with
  | nil => cases hmem
  | cons p rest ih =>
    obtain ⟨k, v⟩ := p
    rw [List.map_cons, List.nodup_cons] at hnd
    rcases List.mem_cons.mp hmem with heq | hmem'
    · cases heq
      have hrest : updateAssoc bid (fun x => { x with status := .cancelled }) rest = rest :=
        updateAssoc_not_mem _ _ _ hnd.1
      simp only [updateAssoc, if_pos rfl, hrest]
      rw [confirmedTickets_cons, confirmedTickets_cons]
      by_cases ht : b.ticket_type_id = some t <;> simp [ht, hconf]
    · have hk : k ≠ bid := by
        rintro rfl
        exact hnd.1 (List.mem_map.mpr ⟨(k, b), hmem', rfl⟩)
      simp only [updateAssoc, if_neg hk]
      rw [confirmedTickets_cons, confirmedTickets_cons, ih hnd.2 hmem']
      ring

/-- The reservation write set preserves the accounting invariant,
given exactly the facts the transaction's read phase established. -/
theorem consistent_reserveWrite (uid eid : Nat) (tid : Option Nat) (q : Int) (price : ℚ)
    (db : Db) (hc : Consistent db) (hq : 1 ≤ q)
    (ev : EventRow) (hev : db.events.lookup eid = some ev) (hs : q ≤ ev.available_seats)
    (htier : truthy tid = none ∨
      ∃ t tt, truthy tid = some t ∧ findTicketType db.ticket_types t eid = some tt ∧
        q ≤ tt.available_quantity) :
    Consistent (reserveWrite uid eid tid q price db) := by
  obtain ⟨hend, htnd, hbnd, hfresh, hqty, hevb, httb⟩ := hc
  have hrow_status : (newBookingRow uid eid tid q price).status = .confirmed := rfl
  have hrow_event : (newBookingRow uid eid tid q price).event_id = eid := rfl
  have hrow_qty : (newBookingRow uid eid tid q price).quantity = q := rfl
  refine ⟨?_, ?_, ?_, ?_, ?_, ?_, ?_⟩
  · show ((updateAssoc eid _ db.events).map Prod.fst).Nodup
    rw [map_fst_updateAssoc]
    exact hend
  · rcases htt : truthy tid with _ | t
    · show ((match truthy tid with
        | some t => updateAssoc t _ db.ticket_types
        | none => db.ticket_types).map Prod.fst).Nodup
      rw [htt]
      exact htnd
    · show ((match truthy tid with
        | some t => updateAssoc t _ db.ticket_types
        | none => db.ticket_types).map Prod.fst).Nodup
      rw [htt, map_fst_updateAssoc]
      exact htnd
  · show ((db.bookings ++ [(db.nextBookingId, newBookingRow uid eid tid q price)]).map
      Prod.fst).Nodup
    rw [List.map_append]
    refine List.Nodup.append hbnd (List.nodup_singleton _) ?_
    intro a ha hb
    simp only [List.map_cons, List.map_nil, List.mem_singleton] at hb
    rcases List.mem_map.mp ha with ⟨p, hp, rfl⟩
    exact absurd (hb ▸ hfresh p hp) (lt_irrefl _)
  · intro p hp
    rcases List.mem_append.mp hp with h | h
    · exact Nat.lt_succ_of_lt (hfresh p h)
    · simp only [List.mem_singleton] at h
      rw [h]
      exact Nat.lt_succ_self _
  · intro p hp
    rcases List.mem_append.mp hp with h | h
    · exact hqty p h
    · simp only [List.mem_singleton] at h
      rw [h]
      exact hq
  · intro p hp
    obtain ⟨v, hv, hval⟩ := mem_updateAssoc hp
    show 0 ≤ p.2.available_seats ∧ p.2.available_seats
      + confirmedSeats (db.bookings ++ [(db.nextBookingId, newBookingRow uid eid tid q price)]) p.1
      ≤ p.2.capacity
    rw [confirmedSeats_append]
    by_cases hpe : p.1 = eid
    · have hve : v = ev := by
        have hl := lookup_of_mem_nodup hend (hpe ▸ hv)
        rw [hev] at hl
        exact (Option.some.inj hl).symm
      have horig := hevb (eid, ev) (mem_of_lookup hev)
      rw [hval, if_pos hpe, hve]
      have hif : (if (newBookingRow uid eid tid q price).status = BookingStatus.confirmed ∧
          (newBookingRow uid eid tid q price).event_id = p.1
          then (newBookingRow uid eid tid q price).quantity else 0) = q := by
        rw [if_pos ⟨hrow_status, hpe ▸ hrow_event⟩, hrow_qty]
      rw [hif, hpe]
      constructor
      · simp only
        omega
      · simp only at horig ⊢
        linarith [horig.2]
    · have horig := hevb (p.1, v) hv
      rw [hval, if_neg hpe]
      have hif : (if (newBookingRow uid eid tid q price).status = BookingStatus.confirmed ∧
          (newBookingRow uid eid tid q price).event_id = p.1
          then (newBookingRow uid eid tid q price).quantity else 0) = 0 := by
        rw [if_neg]
        rintro ⟨_, he⟩
        exact hpe (hrow_event ▸ he).symm
      rw [hif]
      simp only at horig ⊢
      constructor
      · exact horig.1
      · linarith [horig.2]
  · rcases htt : truthy tid with _ | t
    · intro p hp
      have hp' : p ∈ db.ticket_types := by
        have : (match truthy tid with
            | some t => updateAssoc t
                (fun tt => { tt with available_quantity := tt.available_quantity - q })
                db.ticket_types
            | none => db.ticket_types) = db.ticket_types := by rw [htt]
        exact this ▸ hp
      have horig := httb p hp'
      show 0 ≤ p.2.available_quantity ∧ p.2.available_quantity
        + confirmedTickets (db.bookings ++ [(db.nextBookingId, newBookingRow uid eid tid q price)]) p.1
        ≤ p.2.quantity
      rw [confirmedTickets_append]
      have hif : (if (newBookingRow uid eid tid q price).status = BookingStatus.confirmed ∧
          (newBookingRow uid eid tid q price).ticket_type_id = some p.1
          then (newBookingRow uid eid tid q price).quantity else 0) = 0 := by
        rw [if_neg]
        rintro ⟨_, ht⟩
        have : truthy tid = some p.1 := ht
        rw [htt] at this
        cases this
      rw [hif]
      exact ⟨horig.1, by linarith [horig.2]⟩
    · rcases htier with htn | ⟨t', tt, htt', htt2, hstock⟩
      · rw [htn] at htt
        cases htt
      · have ht' : t' = t := by
          rw [htt'] at htt
          exact Option.some.inj htt
        subst ht'
        intro p hp
        have hp' : p ∈ updateAssoc t'
            (fun tt => { tt with available_quantity := tt.available_quantity - q })
            db.ticket_types := by
          have : (match truthy tid with
              | some t => updateAssoc t
                  (fun tt => { tt with available_quantity := tt.available_quantity - q })
                  db.ticket_types
              | none => db.ticket_types) = updateAssoc t'
                  (fun tt => { tt with available_quantity := tt.available_quantity - q })
                  db.ticket_types := by rw [htt]
          exact this ▸ hp
        obtain ⟨v, hv, hval⟩ := mem_updateAssoc hp'
        show 0 ≤ p.2.available_quantity ∧ p.2.available_quantity
          + confirmedTickets (db.bookings ++ [(db.nextBookingId, newBookingRow uid eid tid q price)]) p.1
          ≤ p.2.quantity
        rw [confirmedTickets_append]
        by_cases hpt : p.1 = t'
        · have hvtt : v = tt := by
            have hl := lookup_of_mem_nodup htnd (hpt ▸ hv)
            have hl2 := lookup_of_mem_nodup htnd (findTicketType_mem htt2).1
            rw [hl2] at hl
            exact (Option.some.inj hl).symm
          have horig := httb (t', tt) (findTicketType_mem htt2).1
          rw [hval, if_pos hpt, hvtt]
          have hif : (if (newBookingRow uid eid tid q price).status = BookingStatus.confirmed ∧
              (newBookingRow uid eid tid q price).ticket_type_id = some p.1
              then (newBookingRow uid eid tid q price).quantity else 0) = q := by
            have hcond : (newBookingRow uid eid tid q price).ticket_type_id = some p.1 := by
              show truthy tid = some p.1
              rw [htt, hpt]
            rw [if_pos ⟨hrow_status, hcond⟩, hrow_qty]
          rw [hif, hpt]
          simp only at horig ⊢
          constructor
          · omega
          · linarith [horig.2]
        · have horig := httb (p.1, v) hv
          rw [hval, if_neg hpt]
          have hif : (if (newBookingRow uid eid tid q price).status = BookingStatus.confirmed ∧
              (newBookingRow uid eid tid q price).ticket_type_id = some p.1
              then (newBookingRow uid eid tid q price).quantity else 0) = 0 := by
            rw [if_neg]
            rintro ⟨_, ht⟩
            have : truthy tid = some p.1 := ht
            rw [htt] at this
            exact hpt (Option.some.inj this).symm
          rw [hif]
          exact ⟨horig.1, by linarith [horig.2]⟩

/-- The compensation write set preserves the accounting invariant,
given the booking the guard read found confirmed. -/
theorem consistent_cancelWrite (uid : Nat) (admin : Bool) (bid : Nat) (b : BookingRow)
    (db : Db) (hc : Consistent db)
    (hfind : findBooking db.bookings uid admin bid = some b)
    (hconf : b.status = .confirmed) :
    Consistent (cancelWrite bid b db) := by
  obtain ⟨hend, htnd, hbnd, hfresh, hqty, hevb, httb⟩ := hc
  have hmem : (bid, b) ∈ db.bookings := findBooking_mem hfind
  have hq1 : 1 ≤ b.quantity := hqty (bid, b) hmem
  have hseats := confirmedSeats_cancel db.bookings hbnd hmem hconf
  have htick := confirmedTickets_cancel db.bookings hbnd hmem hconf
  refine ⟨?_, ?_, ?_, ?_, ?_, ?_, ?_⟩
  · show ((updateAssoc b.event_id _ db.events).map Prod.fst).Nodup
    rw [map_fst_updateAssoc]
    exact hend
  · rcases htt : truthy b.ticket_type_id with _ | t
    · show ((match truthy b.ticket_type_id with
        | some t => updateAssoc t _ db.ticket_types
        | none => db.ticket_types).map Prod.fst).Nodup
      rw [htt]
      exact htnd
    · show ((match truthy b.ticket_type_id with
        | some t => updateAssoc t _ db.ticket_types
        | none => db.ticket_types).map Prod.fst).Nodup
      rw [htt, map_fst_updateAssoc]
      exact htnd
  · show ((updateAssoc bid _ db.bookings).map Prod.fst).Nodup
    rw [map_fst_updateAssoc]
    exact hbnd
  · intro p hp
    obtain ⟨v, hv, _⟩ := mem_updateAssoc hp
    exact hfresh (p.1, v) hv
  · intro p hp
    obtain ⟨v, hv, hval⟩ := mem_updateAssoc hp
    have hq := hqty (p.1, v) hv
    rw [hval]
    by_cases hpb : p.1 = bid <;> simp [hpb] <;> exact hq
  · intro p hp
    obtain ⟨v, hv, hval⟩ := mem_updateAssoc hp
    have horig := hevb (p.1, v) hv
    show 0 ≤ p.2.available_seats ∧ p.2.available_seats
      + confirmedSeats (updateAssoc bid (fun x => { x with status := .cancelled }) db.bookings) p.1
      ≤ p.2.capacity
    rw [hseats p.1]
    by_cases hpe : p.1 = b.event_id
    · rw [hval, if_pos hpe, if_pos hpe.symm]
      simp only at horig ⊢
      constructor
      · omega
      · linarith [horig.2]
    · rw [hval, if_neg hpe, if_neg fun he => hpe he.symm]
      exact ⟨horig.1, by linarith [horig.2]⟩
  · rcases htt : truthy b.ticket_type_id with _ | t
    · intro p hp
      have hp' : p ∈ db.ticket_types := by
        have : (match truthy b.ticket_type_id with
            | some t => updateAssoc t
                (fun tt => { tt with available_quantity := tt.available_quantity + b.quantity })
                db.ticket_types
            | none => db.ticket_types) = db.ticket_types := by rw [htt]
        exact this ▸ hp
      have horig := httb p hp'
      show 0 ≤ p.2.available_quantity ∧ p.2.available_quantity
        + confirmedTickets (updateAssoc bid (fun x => { x with status := .cancelled }) db.bookings) p.1
        ≤ p.2.quantity
      rw [htick p.1]
      refine ⟨horig.1, ?_⟩
      by_cases hbt : b.ticket_type_id = some p.1
      · rw [if_pos hbt]
        linarith [horig.2]
      · rw [if_neg hbt]
        linarith [horig.2]
    · have hbt : b.ticket_type_id = some t := truthy_some htt
      intro p hp
      have hp' : p ∈ updateAssoc t
          (fun tt => { tt with available_quantity := tt.available_quantity + b.quantity })
          db.ticket_types := by
        have : (match truthy b.ticket_type_id with
            | some t => updateAssoc t
                (fun tt => { tt with available_quantity := tt.available_quantity + b.quantity })
                db.ticket_types
            | none => db.ticket_types) = updateAssoc t
                (fun tt => { tt with available_quantity := tt.available_quantity + b.quantity })
                db.ticket_types := by rw [htt]
        exact this ▸ hp
      obtain ⟨v, hv, hval⟩ := mem_updateAssoc hp'
      have horig := httb (p.1, v) hv
      show 0 ≤ p.2.available_quantity ∧ p.2.available_quantity
        + confirmedTickets (updateAssoc bid (fun x => { x with status := .cancelled }) db.bookings) p.1
        ≤ p.2.quantity
      rw [htick p.1]
      by_cases hpt : p.1 = t
      · rw [hval, if_pos hpt, if_pos (hpt ▸ hbt)]
        simp only at horig ⊢
        constructor
        · omega
        · linarith [horig.2]
      · rw [hval, if_neg hpt]
        rw [if_neg fun he => hpt (Option.some.inj (hbt.symm.trans he)).symm]
        exact ⟨horig.1, by linarith [horig.2]⟩

/-- Every serial API call — reserve or cancel, any arguments, any
injected fault — preserves the accounting invariant. -/
theorem step_preserves_consistent {db db' : Db} (hs : Step db db') (hc : Consistent db) :
    Consistent db' := by
  cases hs with
  | reserve uid eid tid q fault =>
    rcases createBooking_spec uid eid tid q fault db with ⟨_, hdb⟩ | ⟨_, hq, ev, hev, hse, hcase⟩
    · rw [hdb]
      exact hc
    · rcases hcase with ⟨htid, hdb⟩ | ⟨t, tt, htid, htt, hstock, hdb⟩
      · rw [hdb]
        exact consistent_reserveWrite uid eid tid q 0 db hc hq ev hev hse (Or.inl htid)
      · rw [hdb]
        exact consistent_reserveWrite uid eid tid q _ db hc hq ev hev hse
          (Or.inr ⟨t, tt, htid, htt, hstock⟩)
  | cancel uid admin bid fault =>
    rcases cancelBooking_spec uid admin bid fault db with ⟨_, hdb⟩ | ⟨_, b, hfind, hconf, hdb⟩
    · rw [hdb]
      exact hc
    · rw [hdb]
      exact consistent_cancelWrite uid admin bid b db hc hfind hconf

/-- The accounting invariant holds in every reachable state. -/
theorem reachable_consistent {db0 db : Db} (hr : Reachable db0 db) (hc : Consistent db0) :
    Consistent db := by
  induction hr with
  | refl => exact hc
  | tail _ hstep ih => exact step_preserves_consistent hstep ih

/-- The accounting invariant implies the two counter inequalities. -/
theorem consistent_seat_invariants {db : Db} (hc : Consistent db) : SeatInvariants db := by
  obtain ⟨_, _, _, _, hqty, hevb, httb⟩ := hc
  constructor
  · intro p hp
    have h := hevb p hp
    have hnn := confirmedSeats_nonneg db.bookings p.1 hqty
    exact ⟨h.1, by linarith [h.2]⟩
  · intro p hp
    have h := httb p hp
    have hnn := confirmedTickets_nonneg db.bookings p.1 hqty
    exact ⟨h.1, by linarith [h.2]⟩

/-! ## C5 — the counter inequalities along reserve/cancel sequences -/

/-- **C5, counterexample**: the claim quantifies over *every* starting
state satisfying only the two inequalities.  They are not inductive on
their own: `dbUnaccounted` satisfies them (`0 ≤ 10 ≤ 10`) while its
ledger holds a confirmed five-seat booking the counters do not account
for; one `cancelBooking` call — a legal cancel/reserve sequence of
length one — credits the counter to `15 > capacity = 10`, violating
`available_seats ≤ capacity`. -/
theorem seat_inequalities_alone_not_inductive :
    SeatInvariants dbUnaccounted ∧
    Reachable dbUnaccounted (cancelBooking 7 false 1 none dbUnaccounted).db ∧
    (cancelBooking 7 false 1 none dbUnaccounted).db.events.lookup 1 = some ⟨10, 15⟩ ∧
    ¬ SeatInvariants (cancelBooking 7 false 1 none dbUnaccounted).db :=
  ⟨by unfold SeatInvariants; decide,
   Relation.ReflTransGen.single (Step.cancel 7 false 1 none dbUnaccounted),
   by decide, by unfold SeatInvariants; decide⟩

/-- **C5, amended**: the two inequalities `0 ≤ available_seats ≤
capacity` and `0 ≤ available_quantity ≤ quantity` hold in every state
reachable by any sequence of reserve and cancel calls from a state
satisfying the *accounting* invariant `Consistent` — the inequalities
strengthened by the requirement that each counter plus the confirmed
ledger quantity held against it stays within its ceiling (with unique
primary keys and a fresh `AUTO_INCREMENT` counter).  Fresh databases
(full counters, empty ledger) satisfy `Consistent`, so the
inequalities hold along every run of the engine from such a state. -/
theorem seat_invariants_hold_on_reachable (db0 db : Db)
    (hc : Consistent db0) (hr : Reachable db0 db) : SeatInvariants db :=
  consistent_seat_invariants (reachable_consistent hr hc)

/-- Witness for the amended C5: one reserve step from the accounted
state `dbAccounted`. -/
theorem seat_invariants_hold_on_reachable_witness :
    Consistent dbAccounted ∧
    SeatInvariants (createBooking 9 1 (some 5) 2 none dbAccounted).db :=
  ⟨by unfold Consistent; decide,
   seat_invariants_hold_on_reachable dbAccounted _ (by unfold Consistent; decide)
     (Relation.ReflTransGen.single (Step.reserve 9 1 (some 5) 2 none dbAccounted))⟩
